import Mathlib

/-!
Shallow embedding of the Lunarr agent-broker registry core
(`agent-broker/internal/registry/registry.go`, the store types of
`agent-broker/internal/store`, the Qdrant store constructor and the
health handler), together with theorems checking the specification's
claims about it.

Go machine integers that can be negative (`int` fields of filter and
list inputs) are modelled as `Int`; timestamps (`time.Time`) are
modelled as abstract instants `Nat`; `[]float32` embedding vectors are
modelled as `Option (List Rat)` (only presence/absence of the vector is
ever inspected by the embedded code, never its numeric content).
-/

/-- Decidable equality for `Except`, used to evaluate the embedded
operations on concrete inputs. -/
instance {ε α : Type} [DecidableEq ε] [DecidableEq α] : DecidableEq (Except ε α) := fun x y =>
  match x, y with
  | .ok a, .ok b =>
      if h : a = b then .isTrue (by rw [h])
      else .isFalse (by intro he; cases he; exact h rfl)
  | .error a, .error b =>
      if h : a = b then .isTrue (by rw [h])
      else .isFalse (by intro he; cases he; exact h rfl)
  | .ok _, .error _ => .isFalse (by intro he; cases he)
  | .error _, .ok _ => .isFalse (by intro he; cases he)

/-- A skill entry of an A2A agent card (the `ID` and `Name` fields of
`a2a.AgentSkill` used by this code base). -/
structure AgentSkill where
  id : String
  name : String
deriving DecidableEq, Repr

/-- The fields of `a2a.AgentCard` that the registry reads: name,
description, url, version and the skill list. -/
structure AgentCard where
  name : String
  description : String
  url : String
  version : String
  skills : List AgentSkill
deriving DecidableEq, Repr

/-- `store.RegisteredAgent`: an agent registration with broker-internal
metadata. -/
structure RegisteredAgent where
  id : String
  card : AgentCard
  tags : List String
  embedding : Option (List Rat)
  createdAt : Nat
  updatedAt : Nat
deriving DecidableEq, Repr

/-- The sentinel errors `store.ErrNotFound` and `store.ErrAlreadyExists`,
plus validation errors carrying their message (plain `fmt.Errorf`
errors in the source). -/
inductive Err where
  | notFound
  | alreadyExists
  | validation (msg : String)
deriving DecidableEq, Repr

/-- The violation messages accumulated by `ValidateAgentCard` for the
skill list, starting at skill index `i`: for each skill, `id` is
checked before `name`, skills in index order. -/
def skillErrs : Nat → List AgentSkill → List String
  | _, [] => []
  | i, sk :: rest =>
    (if sk.id = "" then ["skill[" ++ toString i ++ "].id is required"] else []) ++
    (if sk.name = "" then ["skill[" ++ toString i ++ "].name is required"] else []) ++
    skillErrs (i + 1) rest

/-- The full violation list built by `ValidateAgentCard` (`errs` in the
source): name, url, version, skills-empty, then the per-skill checks. -/
def cardErrs (card : AgentCard) : List String :=
  (if card.name = "" then ["name is required"] else []) ++
  (if card.url = "" then ["url is required"] else []) ++
  (if card.version = "" then ["version is required"] else []) ++
  (if card.skills.isEmpty then ["at least one skill is required"] else []) ++
  skillErrs 0 card.skills

/-- `registry.ValidateAgentCard`: validates required fields in an
`AgentCard`, aggregating all violations into one error. -/
def validateAgentCard (card : AgentCard) : Except String Unit :=
  let errs := cardErrs card
  if errs.isEmpty then .ok ()
  else .error ("invalid agent card: " ++ String.intercalate ", " errs)

/-- Whether a character is matched by the character class of the
`agentIDPattern` regular expression `^[a-zA-Z0-9_-]+$`. -/
def isAgentIDChar (c : Char) : Bool :=
  ('a' ≤ c && c ≤ 'z') || ('A' ≤ c && c ≤ 'Z') || ('0' ≤ c && c ≤ '9') ||
    c = '_' || c = '-'

/-- `agentIDPattern.MatchString`: the anchored pattern `^[a-zA-Z0-9_-]+$`
matches a string exactly when it is non-empty and every character is in
the class. -/
def agentIDPatternMatch (s : String) : Bool :=
  !s.isEmpty && s.data.all isAgentIDChar

/-- `registry.validateAgentID`: empty check, then byte-length check
(Go `len` counts UTF-8 bytes), then the pattern check. -/
def validateAgentID (id : String) : Except String Unit :=
  if id = "" then .error "agent_id is required"
  else if id.utf8ByteSize > 64 then .error "agent_id must be at most 64 characters"
  else if !agentIDPatternMatch id then
    .error "agent_id must match pattern ^[a-zA-Z0-9_-]+$"
  else .ok ()

/-- The state of the in-memory store: the stored records in insertion
order (the map from id to record of the source, together with the
insertion order the spec's stable sort refers to). -/
abbrev MemState : Type := List RegisteredAgent

/-- `store.AgentFilter`: criteria for listing agents.  `Offset` and
`Limit` are Go `int`s. -/
structure AgentFilter where
  offset : Int
  limit : Int
  tags : List String
  skills : List String
  query : String
deriving DecidableEq, Repr

/-- `store.AgentListResult`: the list result with pagination info. -/
structure AgentListResult where
  agents : List RegisteredAgent
  total : Nat
deriving DecidableEq, Repr

/-- Modelled from the spec: `MemoryStore.CreateAgent` (the file
`internal/store/memory.go` is not part of the given sources; only its
tests are).  Fails with `AlreadyExists` if the id is present; otherwise
persists the record. -/
def MemoryStore.createAgent (agent : RegisteredAgent) (s : MemState) :
    Except Err MemState :=
  if s.any (fun b => b.id == agent.id) then .error .alreadyExists
  else .ok (s ++ [agent])

/-- Modelled from the spec: `MemoryStore.GetAgent` (from the missing
`internal/store/memory.go`).  Fails with `NotFound` if absent. -/
def MemoryStore.getAgent (id : String) (s : MemState) :
    Except Err RegisteredAgent :=
  match s.find? (fun b => b.id == id) with
  | some a => .ok a
  | none => .error .notFound

/-- Modelled from the spec: `MemoryStore.UpdateAgent` (from the missing
`internal/store/memory.go`).  Fails with `NotFound` if absent;
otherwise replaces the stored fields. -/
def MemoryStore.updateAgent (agent : RegisteredAgent) (s : MemState) :
    Except Err MemState :=
  if s.any (fun b => b.id == agent.id) then
    .ok (s.map (fun b => if b.id == agent.id then agent else b))
  else .error .notFound

/-- Modelled from the spec: `MemoryStore.DeleteAgent` (from the missing
`internal/store/memory.go`).  Fails with `NotFound` if absent;
otherwise removes the record. -/
def MemoryStore.deleteAgent (id : String) (s : MemState) :
    Except Err MemState :=
  if s.any (fun b => b.id == id) then
    .ok (s.filter (fun b => !(b.id == id)))
  else .error .notFound

/-- Case-insensitive substring search on the character lists of the
lowered strings (`strings.Contains(strings.ToLower(h), strings.ToLower(q))`). -/
def charsStartWith : List Char → List Char → Bool
  | _, [] => true
  | [], _ :: _ => false
  | c :: cs, d :: ds => c == d && charsStartWith cs ds

/-- Whether `needle` occurs as a contiguous run inside `hay`. -/
def charsContain (hay needle : List Char) : Bool :=
  match hay with
  | [] => needle.isEmpty
  | _ :: rest => charsStartWith hay needle || charsContain rest needle

/-- Case-insensitive containment of `q` in `hay`. -/
def containsFold (hay q : String) : Bool :=
  charsContain hay.toLower.data q.toLower.data

/-- Modelled from the spec: the selection predicate of
`MemoryStore.ListAgents` (from the missing `internal/store/memory.go`).
Tag, skill and query predicates are ANDed; within each, any match
suffices; an empty criterion matches everything. -/
def matchesFilter (f : AgentFilter) (a : RegisteredAgent) : Bool :=
  (f.tags.isEmpty || f.tags.any (fun t => a.tags.contains t)) &&
  (f.skills.isEmpty || f.skills.any (fun sk => a.card.skills.any (fun s => s.id == sk))) &&
  (f.query.isEmpty || containsFold a.card.name f.query ||
    containsFold a.card.description f.query)

/-- Ordering used to sort list results: newer (larger `createdAt`)
records come first; ties are resolved by the stability of the sort. -/
def createdDesc (a b : RegisteredAgent) : Prop :=
  b.createdAt ≤ a.createdAt

instance : DecidableRel createdDesc := fun a b =>
  Nat.decLe b.createdAt a.createdAt

instance : IsTotal RegisteredAgent createdDesc :=
  ⟨fun a b => Nat.le_total b.createdAt a.createdAt⟩

instance : IsTrans RegisteredAgent createdDesc :=
  ⟨fun _ _ _ h1 h2 => Nat.le_trans h2 h1⟩

/-- Modelled from the spec: `MemoryStore.ListAgents` (from the missing
`internal/store/memory.go`).  Select the matching records, sort them by
`createdAt` descending with a stable sort, report the matched count as
`Total`, then apply offset (skip) and limit (take). -/
def MemoryStore.listAgents (f : AgentFilter) (s : MemState) : AgentListResult :=
  let matched := s.filter (matchesFilter f)
  let sorted := List.insertionSort createdDesc matched
  { agents := (sorted.drop f.offset.toNat).take f.limit.toNat,
    total := matched.length }

/-- `registry.CreateInput`. -/
structure CreateInput where
  id : String
  card : AgentCard
  tags : List String
deriving DecidableEq, Repr

/-- `registry.ListInput`.  `Offset` and `Limit` are Go `int`s. -/
structure ListInput where
  offset : Int
  limit : Int
  tags : List String
  skills : List String
  query : String
deriving DecidableEq, Repr

/-- `registry.UpdateInput`. -/
structure UpdateInput where
  id : String
  card : AgentCard
  tags : List String
deriving DecidableEq, Repr

/-- `RegistryService.Create`: validate the id, then the card; stamp
`createdAt = updatedAt = now` and `embedding = nil`; delegate to
`Store.CreateAgent`.  The current time is passed explicitly. -/
def RegistryService.create (input : CreateInput) (now : Nat) (s : MemState) :
    Except Err RegisteredAgent × MemState :=
  match validateAgentID input.id with
  | .error e => (.error (.validation e), s)
  | .ok _ =>
    match validateAgentCard input.card with
    | .error e => (.error (.validation e), s)
    | .ok _ =>
      let agent : RegisteredAgent :=
        { id := input.id, card := input.card, tags := input.tags,
          embedding := none, createdAt := now, updatedAt := now }
      match MemoryStore.createAgent agent s with
      | .error e => (.error e, s)
      | .ok s1 => (.ok agent, s1)

/-- `RegistryService.Get`: delegate to `Store.GetAgent`. -/
def RegistryService.get (id : String) (s : MemState) : Except Err RegisteredAgent :=
  MemoryStore.getAgent id s

/-- The filter `RegistryService.List` builds from its input: default the
limit to 20 if non-positive, cap it at 100, floor the offset at 0, and
pass tags, skills and query through. -/
def toFilter (input : ListInput) : AgentFilter :=
  let limit1 := if input.limit ≤ 0 then 20 else input.limit
  let limit2 := if limit1 > 100 then 100 else limit1
  let offset1 := if input.offset < 0 then 0 else input.offset
  { offset := offset1, limit := limit2, tags := input.tags,
    skills := input.skills, query := input.query }

/-- `RegistryService.List`: normalize the input and delegate to
`Store.ListAgents`. -/
def RegistryService.list (input : ListInput) (s : MemState) : AgentListResult :=
  MemoryStore.listAgents (toFilter input) s

/-- The record `RegistryService.Update` builds from the existing record
and the input: replace `card`/`tags`, clear `embedding`, set
`updatedAt = now`, preserve `id` and `createdAt` (the in-place mutation
of `existing` in the source). -/
def updatedAgent (existing : RegisteredAgent) (input : UpdateInput) (now : Nat) :
    RegisteredAgent :=
  { existing with
    card := input.card
    tags := input.tags
    embedding := none
    updatedAt := now }

/-- `RegistryService.Update`: validate the card, fetch the existing
record, replace `card`/`tags`, clear `embedding`, set `updatedAt = now`
(preserving `createdAt`), and persist via `Store.UpdateAgent`. -/
def RegistryService.update (input : UpdateInput) (now : Nat) (s : MemState) :
    Except Err RegisteredAgent × MemState :=
  match validateAgentCard input.card with
  | .error e => (.error (.validation e), s)
  | .ok _ =>
    match MemoryStore.getAgent input.id s with
    | .error e => (.error e, s)
    | .ok existing =>
      let updated : RegisteredAgent := updatedAgent existing input now
      match MemoryStore.updateAgent updated s with
      | .error e => (.error e, s)
      | .ok s1 => (.ok updated, s1)

/-- `RegistryService.Delete`: delegate to `Store.DeleteAgent`. -/
def RegistryService.delete (id : String) (s : MemState) :
    Except Err MemState :=
  MemoryStore.deleteAgent id s

/-- `QdrantStore.Ping`: delegate to the client's health check, wrapping
a failure message.  The outcome of the external gRPC call is passed in
as `healthCheck`. -/
def QdrantStore.ping (healthCheck : Except String Unit) : Except String Unit :=
  match healthCheck with
  | .ok _ => .ok ()
  | .error e => .error ("qdrant health check failed: " ++ e)

/-- The observable outcome of `store.NewQdrantStore`: the constructor's
return value (a usable store or an error) and whether `Close` was
called on the client. -/
structure QdrantInit where
  result : Except String Unit
  closed : Bool
deriving DecidableEq, Repr

/-- `store.NewQdrantStore`: build the client, then probe health via
`Ping`; on probe failure close the client and fail.  The outcomes of
the two external effects (`qdrant.NewClient` and the health check) are
passed in explicitly. -/
def newQdrantStore (clientResult : Except String Unit)
    (healthCheck : Except String Unit) : QdrantInit :=
  match clientResult with
  | .error e => { result := .error ("failed to create qdrant client: " ++ e), closed := false }
  | .ok _ =>
    match QdrantStore.ping healthCheck with
    | .error e => { result := .error ("failed to connect to qdrant: " ++ e), closed := true }
    | .ok _ => { result := .ok (), closed := false }

/-- The observable outcome of `HealthHandler.ServeHTTP`: HTTP status
code, the JSON `status` field, the `checks.vector_storage` field, and
whether a probe (`Ping`) was performed. -/
structure HealthOutcome where
  statusCode : Nat
  status : String
  vectorStorage : String
  probed : Bool
deriving DecidableEq, Repr

/-- `HealthHandler.ServeHTTP`: start from the healthy/200/"up" response;
if the handler holds a checker (`h.store != nil`), probe it and degrade
to unhealthy/503/"down" on failure.  `checker = none` models a nil
checker; `some r` models a checker whose `Ping` returns `r`. -/
def healthServe (checker : Option (Except String Unit)) : HealthOutcome :=
  let base : HealthOutcome :=
    { statusCode := 200, status := "healthy", vectorStorage := "up", probed := false }
  match checker with
  | none => base
  | some pingResult =>
    match pingResult with
    | .ok _ => { base with probed := true }
    | .error _ =>
      { statusCode := 503, status := "unhealthy", vectorStorage := "down", probed := true }

theorem if_singleton_nil_iff (c : Prop) [Decidable c] (x : String) :
    ((if c then [x] else []) = []) ↔ ¬c := by
  split <;> simp [*]

theorem skillErrs_nil_iff (skills : List AgentSkill) :
    ∀ i, skillErrs i skills = [] ↔ ∀ sk ∈ skills, sk.id ≠ "" ∧ sk.name ≠ "" := by
  induction skills with
  | nil => intro i; simp [skillErrs]
  | cons sk rest ih =>
    intro i
    by_cases h1 : sk.id = "" <;> by_cases h2 : sk.name = "" <;>
      simp [skillErrs, h1, h2, ih (i + 1)]

theorem cardErrs_nil_iff (card : AgentCard) :
    cardErrs card = [] ↔
      (card.name ≠ "" ∧ card.url ≠ "" ∧ card.version ≠ "" ∧ card.skills ≠ [] ∧
        ∀ sk ∈ card.skills, sk.id ≠ "" ∧ sk.name ≠ "") := by
  simp only [cardErrs, List.append_eq_nil, if_singleton_nil_iff,
    skillErrs_nil_iff, List.isEmpty_iff, and_assoc]

theorem validateAgentCard_ok_iff_errs (card : AgentCard) :
    validateAgentCard card = .ok () ↔ cardErrs card = [] := by
  cases h : cardErrs card with
  | nil => simp [validateAgentCard, h]
  | cons a l => simp [validateAgentCard, h]

theorem validateAgentCard_error_msg (card : AgentCard) (m : String)
    (h : validateAgentCard card = .error m) :
    m = "invalid agent card: " ++ String.intercalate ", " (cardErrs card) := by
  cases he : cardErrs card with
  | nil => simp [validateAgentCard, he] at h
  | cons a l =>
    simp only [validateAgentCard, he, List.isEmpty_cons, Bool.false_eq_true,
      if_false] at h
    cases h
    rfl

theorem skillErrs_mem_id (skills : List AgentSkill) :
    ∀ j i (h : i < skills.length), (skills.get ⟨i, h⟩).id = "" →
      ("skill[" ++ toString (j + i) ++ "].id is required") ∈ skillErrs j skills := by
  induction skills with
  | nil => intro j i h; exact absurd h (Nat.not_lt_zero i)
  | cons sk rest ih =>
    intro j i h hid
    cases i with
    | zero =>
      have hsk : sk.id = "" := hid
      simp [skillErrs, hsk]
    | succ i1 =>
      have h1 : i1 < rest.length := Nat.lt_of_succ_lt_succ h
      have hmem := ih (j + 1) i1 h1 hid
      have harith : j + (i1 + 1) = (j + 1) + i1 := by omega
      rw [harith]
      simp only [skillErrs]
      exact List.mem_append_right _ hmem

theorem skillErrs_mem_name (skills : List AgentSkill) :
    ∀ j i (h : i < skills.length), (skills.get ⟨i, h⟩).name = "" →
      ("skill[" ++ toString (j + i) ++ "].name is required") ∈ skillErrs j skills := by
  induction skills with
  | nil => intro j i h; exact absurd h (Nat.not_lt_zero i)
  | cons sk rest ih =>
    intro j i h hname
    cases i with
    | zero =>
      have hsk : sk.name = "" := hname
      simp [skillErrs, hsk]
    | succ i1 =>
      have h1 : i1 < rest.length := Nat.lt_of_succ_lt_succ h
      have hmem := ih (j + 1) i1 h1 hname
      have harith : j + (i1 + 1) = (j + 1) + i1 := by omega
      rw [harith]
      simp only [skillErrs]
      exact List.mem_append_right _ hmem

/-- C4: the claim states the aggregated message for the empty card is
exactly `"name is required, url is required, version is required, at
least one skill is required"`; the code prefixes the aggregate with
`"invalid agent card: "`, so the message differs from the claimed
string at that very input. -/
theorem emptyCard_message_counterexample :
    validateAgentCard ⟨"", "", "", "", []⟩ ≠
      .error "name is required, url is required, version is required, at least one skill is required" ∧
    validateAgentCard ⟨"", "", "", "", []⟩ =
      .error "invalid agent card: name is required, url is required, version is required, at least one skill is required" := by
  constructor
  · decide
  · decide

/-- C4 (amended): `ValidateAgentCard` on a completely empty card
returns an error whose message is exactly `"invalid agent card: name is
required, url is required, version is required, at least one skill is
required"` (the four violations in this order, joined by `", "`, after
the fixed prefix). -/
theorem emptyCard_message :
    validateAgentCard ⟨"", "", "", "", []⟩ =
      .error ("invalid agent card: " ++ String.intercalate ", "
        ["name is required", "url is required", "version is required",
         "at least one skill is required"]) := by
  decide

/-- C5: `ValidateAgentCard` returns nil exactly when name, url, version
are non-empty, the skill list is non-empty and every skill has
non-empty id and name; otherwise it fails with one aggregated error
whose message joins all the collected violations (name, url, version,
skills-empty, then skills in index order with id checked before name),
and every violated per-skill requirement is reported at its position as
`skill[i].<field> is required`. -/
theorem validateAgentCard_complete (card : AgentCard) :
    (validateAgentCard card = .ok () ↔
      (card.name ≠ "" ∧ card.url ≠ "" ∧ card.version ≠ "" ∧ card.skills ≠ [] ∧
        ∀ sk ∈ card.skills, sk.id ≠ "" ∧ sk.name ≠ "")) ∧
    (∀ m, validateAgentCard card = .error m →
      m = "invalid agent card: " ++ String.intercalate ", " (cardErrs card) ∧
      (∀ i (h : i < card.skills.length),
        ((card.skills.get ⟨i, h⟩).id = "" →
          ("skill[" ++ toString i ++ "].id is required") ∈ cardErrs card) ∧
        ((card.skills.get ⟨i, h⟩).name = "" →
          ("skill[" ++ toString i ++ "].name is required") ∈ cardErrs card))) := by
  refine ⟨(validateAgentCard_ok_iff_errs card).trans (cardErrs_nil_iff card), ?_⟩
  intro m hm
  refine ⟨validateAgentCard_error_msg card m hm, ?_⟩
  intro i h
  constructor
  · intro hid
    have hmem := skillErrs_mem_id card.skills 0 i h hid
    rw [Nat.zero_add] at hmem
    exact List.mem_append_right _ hmem
  · intro hname
    have hmem := skillErrs_mem_name card.skills 0 i h hname
    rw [Nat.zero_add] at hmem
    exact List.mem_append_right _ hmem

theorem validateAgentCard_complete_witness :
    (validateAgentCard ⟨"", "desc", "u", "v", [⟨"", "N"⟩, ⟨"i", ""⟩]⟩ =
      .error "invalid agent card: name is required, skill[0].id is required, skill[1].name is required") ∧
    ("invalid agent card: name is required, skill[0].id is required, skill[1].name is required" =
      "invalid agent card: " ++ String.intercalate ", "
        (cardErrs ⟨"", "desc", "u", "v", [⟨"", "N"⟩, ⟨"i", ""⟩]⟩)) ∧
    (("skill[" ++ toString 0 ++ "].id is required") ∈
      cardErrs ⟨"", "desc", "u", "v", [⟨"", "N"⟩, ⟨"i", ""⟩]⟩) ∧
    (("skill[" ++ toString 1 ++ "].name is required") ∈
      cardErrs ⟨"", "desc", "u", "v", [⟨"", "N"⟩, ⟨"i", ""⟩]⟩) := by
  have h := (validateAgentCard_complete ⟨"", "desc", "u", "v", [⟨"", "N"⟩, ⟨"i", ""⟩]⟩).2
    "invalid agent card: name is required, skill[0].id is required, skill[1].name is required"
    (by decide)
  exact ⟨by decide, h.1, (h.2 0 (by decide)).1 (by decide), (h.2 1 (by decide)).2 (by decide)⟩

theorem length_le_utf8ByteSize (s : String) : s.data.length ≤ s.utf8ByteSize := by
  cases s with
  | mk l =>
    show l.length ≤ String.utf8ByteSize.go l
    induction l with
    | nil => exact Nat.le_refl 0
    | cons c cs ih =>
      show cs.length + 1 ≤ String.utf8ByteSize.go cs + c.utf8Size
      exact Nat.add_le_add ih (Char.utf8Size_pos c)

theorem agentIDPatternMatch_iff (s : String) :
    agentIDPatternMatch s = true ↔ (s ≠ "" ∧ s.data.all isAgentIDChar = true) := by
  rw [agentIDPatternMatch, Bool.and_eq_true, Bool.not_eq_true']
  rw [show (s.isEmpty = false) ↔ ¬(s.isEmpty = true) by simp]
  rw [String.isEmpty_iff s]

/-- C6: the claim states the pattern-violation message is
`"agent_id must match pattern ^[A-Za-z0-9_-]+$"`; the code's message
orders the character class as `^[a-zA-Z0-9_-]+$`, so `"agent@invalid"`
is rejected with a different message than claimed.  Moreover the length
check counts UTF-8 bytes (Go `len`), not characters: a 33-character
string of two-byte characters is rejected with the length message, not
the pattern message the claim assigns to strings of at most 64
characters containing out-of-class characters. -/
theorem validateAgentID_counterexample :
    validateAgentID "agent@invalid" =
      .error "agent_id must match pattern ^[a-zA-Z0-9_-]+$" ∧
    ("agent_id must match pattern ^[a-zA-Z0-9_-]+$" : String) ≠
      "agent_id must match pattern ^[A-Za-z0-9_-]+$" ∧
    (String.mk (List.replicate 33 'é')).data.length = 33 ∧
    validateAgentID (String.mk (List.replicate 33 'é')) =
      .error "agent_id must be at most 64 characters" := by
  refine ⟨by decide, by decide, by decide, by decide⟩

/-- C6 (amended): `validateAgentID` succeeds exactly when the id is
non-empty, its UTF-8 byte length is at most 64 and every character is
in `[a-zA-Z0-9_-]`; it fails with `"agent_id is required"` when empty,
otherwise with `"agent_id must be at most 64 characters"` when the byte
length exceeds 64, otherwise with
`"agent_id must match pattern ^[a-zA-Z0-9_-]+$"` when some character is
outside the class.  `"agent@invalid"` and every id of 65 characters are
rejected; `"valid-ID_123"` is accepted. -/
theorem validateAgentID_amended :
    (∀ id : String,
      (validateAgentID id = .ok () ↔
        (id ≠ "" ∧ id.utf8ByteSize ≤ 64 ∧ id.data.all isAgentIDChar = true)) ∧
      (id = "" → validateAgentID id = .error "agent_id is required") ∧
      (id ≠ "" → 64 < id.utf8ByteSize →
        validateAgentID id = .error "agent_id must be at most 64 characters") ∧
      (id ≠ "" → id.utf8ByteSize ≤ 64 → ¬(id.data.all isAgentIDChar = true) →
        validateAgentID id = .error "agent_id must match pattern ^[a-zA-Z0-9_-]+$")) ∧
    validateAgentID "agent@invalid" ≠ .ok () ∧
    (∀ id : String, id.data.length = 65 → validateAgentID id ≠ .ok ()) ∧
    validateAgentID "valid-ID_123" = .ok () := by
  refine ⟨?_, by decide, ?_, by decide⟩
  · intro id
    by_cases h1 : id = ""
    · subst h1
      exact ⟨by decide, fun _ => by decide, fun h => absurd rfl h, fun h => absurd rfl h⟩
    · by_cases h2 : 64 < id.utf8ByteSize
      · have hval : validateAgentID id = .error "agent_id must be at most 64 characters" := by
          unfold validateAgentID
          rw [if_neg h1, if_pos h2]
        refine ⟨?_, fun he => absurd he h1, fun _ _ => hval,
          fun _ hle _ => absurd h2 (Nat.not_lt.mpr hle)⟩
        rw [hval]
        constructor
        · intro he; exact Except.noConfusion he
        · rintro ⟨-, hle, -⟩; exact absurd h2 (Nat.not_lt.mpr hle)
      · have hle : id.utf8ByteSize ≤ 64 := Nat.not_lt.mp h2
        by_cases h3 : id.data.all isAgentIDChar = true
        · have hmatch : agentIDPatternMatch id = true := (agentIDPatternMatch_iff id).2 ⟨h1, h3⟩
          have hval : validateAgentID id = .ok () := by
            unfold validateAgentID
            rw [if_neg h1, if_neg h2]
            simp [hmatch]
          refine ⟨?_, fun he => absurd he h1, fun _ hgt => absurd hgt h2,
            fun _ _ hall => absurd h3 hall⟩
          rw [hval]
          simp [h1, hle, h3]
        · have hmatch : agentIDPatternMatch id = false :=
            Bool.eq_false_iff.mpr (fun hm => h3 ((agentIDPatternMatch_iff id).1 hm).2)
          have hval : validateAgentID id =
              .error "agent_id must match pattern ^[a-zA-Z0-9_-]+$" := by
            unfold validateAgentID
            rw [if_neg h1, if_neg h2]
            simp [hmatch]
          refine ⟨?_, fun he => absurd he h1, fun _ hgt => absurd hgt h2, fun _ _ _ => hval⟩
          rw [hval]
          constructor
          · intro he; exact Except.noConfusion he
          · rintro ⟨-, -, hall⟩; exact absurd hall h3
  · intro id hlen hok
    have h1 : id ≠ "" := by
      intro he; subst he; exact absurd hlen (by decide)
    have hge : 64 < id.utf8ByteSize := by
      have := length_le_utf8ByteSize id
      omega
    unfold validateAgentID at hok
    rw [if_neg h1, if_pos hge] at hok
    exact Except.noConfusion hok

theorem validateAgentID_amended_witness :
    validateAgentID "" = .error "agent_id is required" ∧
    validateAgentID "agent@invalid" =
      .error "agent_id must match pattern ^[a-zA-Z0-9_-]+$" ∧
    validateAgentID (String.mk (List.replicate 65 'a')) ≠ .ok () := by
  have h := validateAgentID_amended
  refine ⟨(h.1 "").2.1 rfl, ?_, ?_⟩
  · exact (h.1 "agent@invalid").2.2.2 (by decide) (by decide) (by decide)
  · exact h.2.2.1 (String.mk (List.replicate 65 'a')) (by decide)

/-- C3: the filter `List` passes to the store has limit 20 when the
input limit is non-positive, 100 when it exceeds 100, and the input
limit otherwise; offset 0 when the input offset is negative and the
input offset otherwise; tags, skills and query pass through unchanged. -/
theorem list_filter_normalization (input : ListInput) :
    (∀ s : MemState, RegistryService.list input s = MemoryStore.listAgents (toFilter input) s) ∧
    (input.limit ≤ 0 → (toFilter input).limit = 20) ∧
    (input.limit > 100 → (toFilter input).limit = 100) ∧
    (0 < input.limit → input.limit ≤ 100 → (toFilter input).limit = input.limit) ∧
    (input.offset < 0 → (toFilter input).offset = 0) ∧
    (0 ≤ input.offset → (toFilter input).offset = input.offset) ∧
    (toFilter input).tags = input.tags ∧
    (toFilter input).skills = input.skills ∧
    (toFilter input).query = input.query := by
  refine ⟨fun _ => rfl, ?_, ?_, ?_, ?_, ?_, rfl, rfl, rfl⟩
  · intro h
    simp only [toFilter]
    split_ifs
    all_goals omega
  · intro h
    simp only [toFilter]
    split_ifs
    all_goals omega
  · intro h1 h2
    simp only [toFilter]
    split_ifs
    all_goals omega
  · intro h
    simp only [toFilter]
    split_ifs
    all_goals omega
  · intro h
    simp only [toFilter]
    split_ifs
    all_goals omega

theorem list_filter_normalization_witness :
    (toFilter ⟨-3, 0, ["a"], ["b"], "q"⟩).limit = 20 ∧
    (toFilter ⟨-3, 0, ["a"], ["b"], "q"⟩).offset = 0 ∧
    (toFilter ⟨2, 101, [], [], ""⟩).limit = 100 ∧
    (toFilter ⟨2, 101, [], [], ""⟩).offset = 2 ∧
    (toFilter ⟨0, 7, [], [], ""⟩).limit = 7 := by
  refine ⟨?_, ?_, ?_, ?_, ?_⟩
  · exact (list_filter_normalization ⟨-3, 0, ["a"], ["b"], "q"⟩).2.1 (by decide)
  · exact (list_filter_normalization ⟨-3, 0, ["a"], ["b"], "q"⟩).2.2.2.2.1 (by decide)
  · exact (list_filter_normalization ⟨2, 101, [], [], ""⟩).2.2.1 (by decide)
  · exact (list_filter_normalization ⟨2, 101, [], [], ""⟩).2.2.2.2.2.1 (by decide)
  · exact (list_filter_normalization ⟨0, 7, [], [], ""⟩).2.2.2.1 (by decide) (by decide)

/-- C7: validation failures are detected before any store call: an
invalid id makes `Create` return exactly that validation error with the
store state unchanged (the id error wins when the card is also
invalid, since the id is validated first); a valid id with an invalid
card returns the card validation error with the state unchanged; and
`Update` with an invalid card returns the validation error with the
state unchanged. -/
theorem validation_fails_fast (cinput : CreateInput) (uinput : UpdateInput)
    (now : Nat) (s : MemState) :
    (∀ e, validateAgentID cinput.id = .error e →
      RegistryService.create cinput now s = (.error (.validation e), s)) ∧
    (∀ e, validateAgentID cinput.id = .ok () → validateAgentCard cinput.card = .error e →
      RegistryService.create cinput now s = (.error (.validation e), s)) ∧
    (∀ e, validateAgentCard uinput.card = .error e →
      RegistryService.update uinput now s = (.error (.validation e), s)) := by
  refine ⟨?_, ?_, ?_⟩
  · intro e he
    simp only [RegistryService.create, he]
  · intro e hid he
    simp only [RegistryService.create, hid, he]
  · intro e he
    simp only [RegistryService.update, he]

theorem validation_fails_fast_witness :
    RegistryService.create ⟨"", ⟨"", "", "", "", []⟩, []⟩ 3 [] =
      (.error (.validation "agent_id is required"), []) ∧
    RegistryService.create ⟨"ok-id", ⟨"", "d", "u", "v", [⟨"a", "b"⟩]⟩, []⟩ 3 [] =
      (.error (.validation "invalid agent card: name is required"), []) ∧
    RegistryService.update ⟨"ok-id", ⟨"", "d", "u", "v", [⟨"a", "b"⟩]⟩, []⟩ 3 [] =
      (.error (.validation "invalid agent card: name is required"), []) := by
  refine ⟨?_, ?_, ?_⟩
  · exact (validation_fails_fast ⟨"", ⟨"", "", "", "", []⟩, []⟩
      ⟨"", ⟨"", "", "", "", []⟩, []⟩ 3 []).1 _ (by decide)
  · exact (validation_fails_fast ⟨"ok-id", ⟨"", "d", "u", "v", [⟨"a", "b"⟩]⟩, []⟩
      ⟨"", ⟨"", "", "", "", []⟩, []⟩ 3 []).2.1 _ (by decide) (by decide)
  · exact (validation_fails_fast ⟨"", ⟨"", "", "", "", []⟩, []⟩
      ⟨"ok-id", ⟨"", "d", "u", "v", [⟨"a", "b"⟩]⟩, []⟩ 3 []).2.2 _ (by decide)

/-- C9: `NewQdrantStore` never returns a usable store whose initial
health probe did not succeed, and whenever the probe fails the
constructor closes the client and returns the wrapped connection
error. -/
theorem newQdrantStore_fail_fast (c h : Except String Unit) :
    ((newQdrantStore c h).result = .ok () → c = .ok () ∧ h = .ok ()) ∧
    (∀ e, c = .ok () → h = .error e →
      newQdrantStore c h =
        { result := .error ("failed to connect to qdrant: qdrant health check failed: " ++ e),
          closed := true }) := by
  constructor
  · intro hok
    cases c with
    | error ec => exact Except.noConfusion hok
    | ok u =>
      cases u
      cases h with
      | error eh => exact Except.noConfusion hok
      | ok v => cases v; exact ⟨rfl, rfl⟩
  · intro e hc hh
    subst hc; subst hh
    rfl

theorem newQdrantStore_fail_fast_witness :
    newQdrantStore (.ok ()) (.error "connection refused") =
      { result := .error "failed to connect to qdrant: qdrant health check failed: connection refused",
        closed := true } ∧
    (Except.ok () : Except String Unit) = .ok () ∧
    (Except.ok () : Except String Unit) = .ok () := by
  constructor
  · exact (newQdrantStore_fail_fast (.ok ()) (.error "connection refused")).2
      "connection refused" rfl rfl
  · exact (newQdrantStore_fail_fast (.ok ()) (.ok ())).1 rfl

/-- C10: a `HealthHandler` with a nil checker answers every request
with 200, status `"healthy"` and check `"up"` without probing; with a
checker present it always probes, answers 200/`"healthy"`/`"up"`
exactly when `Ping` succeeds and 503/`"unhealthy"`/`"down"` exactly
when `Ping` fails. -/
theorem healthHandler_semantics :
    healthServe none =
      { statusCode := 200, status := "healthy", vectorStorage := "up", probed := false } ∧
    (∀ r : Except String Unit,
      (healthServe (some r)).probed = true ∧
      (((healthServe (some r)).statusCode = 200 ∧ (healthServe (some r)).status = "healthy" ∧
        (healthServe (some r)).vectorStorage = "up") ↔ r = .ok ()) ∧
      (((healthServe (some r)).statusCode = 503 ∧ (healthServe (some r)).status = "unhealthy" ∧
        (healthServe (some r)).vectorStorage = "down") ↔ ∃ e, r = .error e)) := by
  refine ⟨rfl, ?_⟩
  intro r
  cases r with
  | ok u =>
    cases u
    refine ⟨rfl, ?_, ?_⟩
    · exact ⟨fun _ => rfl, fun _ => ⟨rfl, rfl, rfl⟩⟩
    · constructor
      · rintro ⟨h503, -, -⟩
        exact absurd h503 (by decide)
      · rintro ⟨e, he⟩
        exact Except.noConfusion he
  | error e =>
    refine ⟨rfl, ?_, ?_⟩
    · constructor
      · rintro ⟨h200, -, -⟩
        simp [healthServe] at h200
      · rintro hu
        exact Except.noConfusion hu
    · exact ⟨fun _ => ⟨e, rfl⟩, fun _ => ⟨rfl, rfl, rfl⟩⟩

theorem getAgent_eq_find (id : String) (s : MemState) (a : RegisteredAgent)
    (h : MemoryStore.getAgent id s = .ok a) :
    s.find? (fun b => b.id == id) = some a := by
  unfold MemoryStore.getAgent at h
  cases hf : s.find? (fun b => b.id == id) with
  | none => rw [hf] at h; exact Except.noConfusion h
  | some b =>
    rw [hf] at h
    cases h
    rfl

theorem find?_map_update (i : String) (a : RegisteredAgent) (ha : a.id = i) :
    ∀ s : MemState, (s.find? (fun b => b.id == i)).isSome →
      (s.map (fun b => if b.id == a.id then a else b)).find? (fun b => b.id == i) = some a := by
  intro s
  induction s with
  | nil => intro hex; exact absurd hex (by simp)
  | cons c rest ih =>
    intro hex
    by_cases hc : c.id = i
    · have hhead : (if c.id == a.id then a else c) = a := by
        rw [if_pos]
        rw [ha, hc]
        exact beq_self_eq_true i
      simp only [List.map]
      rw [hhead]
      exact List.find?_cons_of_pos _ (by rw [ha]; exact beq_self_eq_true i)
    · have hhead : (if c.id == a.id then a else c) = c := by
        rw [if_neg]
        rw [ha]
        simpa using hc
      have htail : ((rest.find? fun b => b.id == i)).isSome := by
        rw [List.find?_cons_of_neg _ (by simpa using hc)] at hex
        exact hex
      simp only [List.map]
      rw [hhead]
      rw [List.find?_cons_of_neg _ (by simpa using hc)]
      exact ih htail

/-- C1: with a valid id, a valid card and the id not yet present,
`Create` succeeds; the record it returns carries the input id, card and
tags, no embedding, and `createdAt = updatedAt = now`; the new store
state is the old one with that record appended, and `Get` on it returns
the same record. -/
theorem create_then_get (input : CreateInput) (now : Nat) (s : MemState)
    (hid : validateAgentID input.id = .ok ())
    (hcard : validateAgentCard input.card = .ok ())
    (hfresh : ∀ b ∈ s, b.id ≠ input.id) :
    ∃ a : RegisteredAgent,
      RegistryService.create input now s = (.ok a, s ++ [a]) ∧
      a.id = input.id ∧ a.card = input.card ∧ a.tags = input.tags ∧
      a.embedding = none ∧ a.createdAt = now ∧ a.updatedAt = now ∧
      RegistryService.get input.id (RegistryService.create input now s).2 = .ok a := by
  refine ⟨{ id := input.id, card := input.card, tags := input.tags,
            embedding := none, createdAt := now, updatedAt := now },
    ?_, rfl, rfl, rfl, rfl, rfl, rfl, ?_⟩
  case _ =>
    have hany : (s.any fun b => b.id == input.id) = false := by
      rw [List.any_eq_false]
      intro b hb
      simpa using hfresh b hb
    simp only [RegistryService.create, hid, hcard, MemoryStore.createAgent, hany,
      Bool.false_eq_true, if_false]
  case _ =>
    have hany : (s.any fun b => b.id == input.id) = false := by
      rw [List.any_eq_false]
      intro b hb
      simpa using hfresh b hb
    have hstate : (RegistryService.create input now s).2 =
        s ++ [{ id := input.id, card := input.card, tags := input.tags,
                embedding := none, createdAt := now, updatedAt := now }] := by
      simp only [RegistryService.create, hid, hcard, MemoryStore.createAgent, hany,
        Bool.false_eq_true, if_false]
    rw [hstate]
    have hnone : (s.find? fun b => b.id == input.id) = none := by
      rw [List.find?_eq_none]
      intro b hb
      simpa using hfresh b hb
    simp [RegistryService.get, MemoryStore.getAgent, List.find?_append, hnone]

theorem create_then_get_witness :
    ∃ a : RegisteredAgent,
      RegistryService.create ⟨"agent-1", ⟨"N", "D", "u", "v", [⟨"s1", "S"⟩]⟩, ["t"]⟩ 7 [] =
        (.ok a, [] ++ [a]) ∧
      a.id = "agent-1" ∧ a.card = ⟨"N", "D", "u", "v", [⟨"s1", "S"⟩]⟩ ∧ a.tags = ["t"] ∧
      a.embedding = none ∧ a.createdAt = 7 ∧ a.updatedAt = 7 ∧
      RegistryService.get "agent-1"
        (RegistryService.create ⟨"agent-1", ⟨"N", "D", "u", "v", [⟨"s1", "S"⟩]⟩, ["t"]⟩ 7 []).2 =
        .ok a :=
  create_then_get ⟨"agent-1", ⟨"N", "D", "u", "v", [⟨"s1", "S"⟩]⟩, ["t"]⟩ 7 []
    (by decide) (by decide) (by intro b hb; exact absurd hb (List.not_mem_nil b))

/-- C2: when the card is valid and the agent exists, `Update` succeeds
(under a clock that has advanced past the stored `updatedAt`); the
returned record carries the input card and tags, no embedding (even if
one was previously stored), the existing `createdAt`, and a strictly
larger `updatedAt`; `Get` on the resulting state returns that record. -/
theorem update_semantics (input : UpdateInput) (now : Nat) (s : MemState)
    (existing : RegisteredAgent)
    (hcard : validateAgentCard input.card = .ok ())
    (hget : MemoryStore.getAgent input.id s = .ok existing)
    (hnow : existing.updatedAt < now) :
    ∃ a : RegisteredAgent,
      (RegistryService.update input now s).1 = .ok a ∧
      a.card = input.card ∧ a.tags = input.tags ∧ a.embedding = none ∧
      a.createdAt = existing.createdAt ∧ existing.updatedAt < a.updatedAt ∧
      RegistryService.get input.id (RegistryService.update input now s).2 = .ok a := by
  have hfind : s.find? (fun b => b.id == input.id) = some existing :=
    getAgent_eq_find input.id s existing hget
  have hexid : existing.id = input.id := by
    have := List.find?_some hfind
    simpa using this
  have hmem : existing ∈ s := List.mem_of_find?_eq_some hfind
  have hany : (s.any fun b => b.id == (updatedAgent existing input now).id) = true :=
    List.any_eq_true.2 ⟨existing, hmem, by simp [updatedAgent]⟩
  have hstate : RegistryService.update input now s =
      (.ok (updatedAgent existing input now),
       s.map (fun b =>
         if b.id == (updatedAgent existing input now).id then
           updatedAgent existing input now
         else b)) := by
    simp only [RegistryService.update, hcard, MemoryStore.getAgent, hfind,
      MemoryStore.updateAgent, hany, if_true]
  refine ⟨updatedAgent existing input now,
    by rw [hstate], rfl, rfl, rfl, rfl, hnow, ?_⟩
  rw [hstate]
  unfold RegistryService.get MemoryStore.getAgent
  rw [find?_map_update input.id _ (by simpa [updatedAgent] using hexid) s
    (by rw [hfind]; rfl)]

theorem update_semantics_witness :
    ∃ a : RegisteredAgent,
      (RegistryService.update ⟨"x", ⟨"N2", "D", "u", "v", [⟨"s1", "S"⟩]⟩, ["u2"]⟩ 5
        [⟨"x", ⟨"N", "D", "u", "v", [⟨"s1", "S"⟩]⟩, ["t"], some [], 1, 2⟩]).1 = .ok a ∧
      a.card = ⟨"N2", "D", "u", "v", [⟨"s1", "S"⟩]⟩ ∧ a.tags = ["u2"] ∧
      a.embedding = none ∧ a.createdAt = 1 ∧ 2 < a.updatedAt ∧
      RegistryService.get "x"
        (RegistryService.update ⟨"x", ⟨"N2", "D", "u", "v", [⟨"s1", "S"⟩]⟩, ["u2"]⟩ 5
          [⟨"x", ⟨"N", "D", "u", "v", [⟨"s1", "S"⟩]⟩, ["t"], some [], 1, 2⟩]).2 = .ok a :=
  update_semantics ⟨"x", ⟨"N2", "D", "u", "v", [⟨"s1", "S"⟩]⟩, ["u2"]⟩ 5
    [⟨"x", ⟨"N", "D", "u", "v", [⟨"s1", "S"⟩]⟩, ["t"], some [], 1, 2⟩]
    ⟨"x", ⟨"N", "D", "u", "v", [⟨"s1", "S"⟩]⟩, ["t"], some [], 1, 2⟩
    (by decide) (by decide) (by decide)

theorem filter_orderedInsert (t : Nat) (a : RegisteredAgent) :
    ∀ l : List RegisteredAgent,
      (List.orderedInsert createdDesc a l).filter (fun x => x.createdAt == t) =
      ((a :: l).filter (fun x => x.createdAt == t)) := by
  intro l
  induction l with
  | nil => rfl
  | cons b l ih =>
    by_cases hr : createdDesc a b
    · rw [List.orderedInsert, if_pos hr]
    · rw [List.orderedInsert, if_neg hr]
      have hab : a.createdAt < b.createdAt := Nat.lt_of_not_le hr
      by_cases hat : a.createdAt = t
      · have hbt : (b.createdAt == t) = false := by
          apply beq_eq_false_iff_ne.mpr
          omega
        simp [List.filter_cons, hat, hbt, ih]
      · have hat2 : (a.createdAt == t) = false := beq_eq_false_iff_ne.mpr hat
        simp [List.filter_cons, hat2, ih]

theorem filter_insertionSort_stable (t : Nat) :
    ∀ l : List RegisteredAgent,
      (List.insertionSort createdDesc l).filter (fun x => x.createdAt == t) =
      l.filter (fun x => x.createdAt == t) := by
  intro l
  induction l with
  | nil => rfl
  | cons a l ih =>
    rw [List.insertionSort, filter_orderedInsert]
    simp [List.filter_cons, ih]

/-- C8: `ListAgents` reports as `Total` the number of records matching
the filter before pagination, and returns as page the matched set
sorted by `createdAt` descending — a sorted, stable permutation of the
matches (ties keep insertion order: for every timestamp the records
with that timestamp appear in their original order) — with the first
`offset` records skipped and at most `limit` taken; when
`offset >= total` the page is empty while `Total` still counts the
matches. -/
theorem listAgents_contract (f : AgentFilter) (s : MemState) :
    (MemoryStore.listAgents f s).total = (s.filter (matchesFilter f)).length ∧
    (MemoryStore.listAgents f s).agents =
      ((List.insertionSort createdDesc (s.filter (matchesFilter f))).drop f.offset.toNat).take
        f.limit.toNat ∧
    (List.insertionSort createdDesc (s.filter (matchesFilter f))).Perm
      (s.filter (matchesFilter f)) ∧
    List.Pairwise (fun a b => b.createdAt ≤ a.createdAt)
      (List.insertionSort createdDesc (s.filter (matchesFilter f))) ∧
    (∀ t, (List.insertionSort createdDesc (s.filter (matchesFilter f))).filter
        (fun x => x.createdAt == t) =
      (s.filter (matchesFilter f)).filter (fun x => x.createdAt == t)) ∧
    (((MemoryStore.listAgents f s).total : Int) ≤ f.offset →
      (MemoryStore.listAgents f s).agents = []) := by
  refine ⟨rfl, rfl, List.perm_insertionSort _ _, ?_, fun t => filter_insertionSort_stable t _, ?_⟩
  · exact List.sorted_insertionSort createdDesc _
  · intro hoff
    have htot : (MemoryStore.listAgents f s).total = (s.filter (matchesFilter f)).length := rfl
    rw [htot] at hoff
    have hlen : (List.insertionSort createdDesc (s.filter (matchesFilter f))).length =
        (s.filter (matchesFilter f)).length := (List.perm_insertionSort _ _).length_eq
    have hdrop : (List.insertionSort createdDesc (s.filter (matchesFilter f))).drop
        f.offset.toNat = [] := by
      apply List.drop_eq_nil_of_le
      rw [hlen]
      omega
    show ((List.insertionSort createdDesc (s.filter (matchesFilter f))).drop
        f.offset.toNat).take f.limit.toNat = []
    rw [hdrop]
    exact List.take_nil

theorem listAgents_contract_witness :
    (MemoryStore.listAgents ⟨5, 2, [], [], ""⟩
      [⟨"a", ⟨"N", "D", "u", "v", [⟨"s", "S"⟩]⟩, [], none, 1, 1⟩]).agents = [] ∧
    (MemoryStore.listAgents ⟨5, 2, [], [], ""⟩
      [⟨"a", ⟨"N", "D", "u", "v", [⟨"s", "S"⟩]⟩, [], none, 1, 1⟩]).total = 1 := by
  constructor
  · exact (listAgents_contract ⟨5, 2, [], [], ""⟩
      [⟨"a", ⟨"N", "D", "u", "v", [⟨"s", "S"⟩]⟩, [], none, 1, 1⟩]).2.2.2.2.2 (by decide)
  · decide
